import Mathlib

/-!
Shallow embedding of the financial-data-analysis ingestion pipeline
(src/ingestor.py) and its downstream reader (src/dashboard.py).

Pandas DataFrames are modelled concretely:
  * a wide snapshot (the `Close` frame returned by the quote API) is a
    timestamp index plus a list of named columns of optional prices;
  * the tidy frame produced by `process_data` is a list of records;
  * the parquet data lake is a finite map from file path to file content.

The environment (network, filesystem, wall clock, keyboard) is passed in
explicitly: `fetch_data` receives the outcome of the one `yf.download`
call, `save_to_datalake` receives the outcome of the one `to_parquet`
call, and one iteration of the scheduler loop receives the event that
drives it.  Exceptions that a Python function lets escape are modelled in
its result type; exceptions it catches internally are not, because the
caller never sees them.
-/

namespace Ingestor

/-- Prices are modelled as rationals; the claims only move prices around,
never compute with them. -/
abbrev Price := Rat

/-- A timezone-consistent observation instant, already decomposed into
calendar fields the way pandas exposes it via the dt accessor. -/
structure Datetime where
  year : Int
  month : Int
  day : Int
  hour : Int
  minute : Int
deriving DecidableEq, Repr

/-- The wide `Close` DataFrame: a datetime index (with its mutable name
metadata), and one column of optional prices per ticker, in column order.
A missing cell is `none` (NaN in pandas). -/
structure WideDF where
  indexName : Option String
  index : List Datetime
  cols : List (String × List (Option Price))
deriving DecidableEq, Repr

/-- pd.DataFrame(): the empty frame returned on the error paths. -/
def WideDF.emptyFrame : WideDF := ⟨none, [], []⟩

/-- df.empty in pandas: true when any axis has length zero. -/
def WideDF.isEmpty (df : WideDF) : Bool := df.index.isEmpty || df.cols.isEmpty

/-- Every column has exactly one cell per index entry (pandas maintains
this for any real DataFrame). -/
def WideDF.wellFormed (df : WideDF) : Prop :=
  ∀ c ∈ df.cols, c.2.length = df.index.length

instance (df : WideDF) : Decidable df.wellFormed := by
  unfold WideDF.wellFormed
  infer_instance

/-- A line emitted through the logging module. -/
inductive LogEntry
  | info (msg : String)
  | warning (msg : String)
  | error (msg : String)
  | critical (msg : String)
deriving DecidableEq, Repr

/-- The frame returned by one yf.download call: its emptiness flag and
its `Close` column group when present. -/
structure DownloadData where
  isEmpty : Bool
  close : Option WideDF
deriving Repr

/-- fetch_data(assets): one batched download; `r` is the outcome of the
yf.download call (`Except.error` = the call raised).  Every failure path
is caught inside the function, which logs and returns an empty DataFrame;
the second component is what went to the log.  Nothing is ever raised to
the caller, so the return type has no error branch. -/
def fetch_data (r : Except String DownloadData) : WideDF × List LogEntry :=
  match r with
  | .error e => (WideDF.emptyFrame, [.error ("Error fetching data: " ++ e)])
  | .ok data =>
      if data.isEmpty then
        (WideDF.emptyFrame, [.warning "No data returned from API."])
      else
        match data.close with
        | none => (WideDF.emptyFrame, [.error "Column Close not found in API response."])
        | some df_close => (df_close, [])

/-- One row of the melted (long-format) frame, before dropna. -/
structure MeltedRow where
  datetime : Datetime
  ticker : String
  close : Option Price
deriving DecidableEq, Repr

/-- One persisted tidy record, with the partition-key columns added. -/
structure QuoteRecord where
  datetime : Datetime
  ticker : String
  close : Price
  ano : Int
  mes : Int
  dia : Int
deriving DecidableEq, Repr

/-- pd.melt with id_vars [Datetime]: stacks the value columns vertically,
in column order; within one column the rows keep index order. -/
def meltCols (idx : List Datetime) :
    List (String × List (Option Price)) → List MeltedRow
  | [] => []
  | c :: cs =>
      (idx.zip c.2).map (fun tv => ⟨tv.1, c.1, tv.2⟩) ++ meltCols idx cs

/-- df_reset.melt(id_vars=[Datetime], var_name=Ticker, value_name=Close). -/
def melt (df : WideDF) : List MeltedRow := meltCols df.index df.cols

/-- df_melted.dropna(subset=[Close]). -/
def dropnaClose (rows : List MeltedRow) : List MeltedRow :=
  rows.filter (fun r => r.close.isSome)

/-- The three assignments df_melted[ano/mes/dia] = Datetime.dt.year/month/day,
together with the typing fact that every surviving row has a present price. -/
def addPartitionCols (rows : List MeltedRow) : List QuoteRecord :=
  rows.filterMap (fun r =>
    r.close.map (fun p =>
      ⟨r.datetime, r.ticker, p, r.datetime.year, r.datetime.month, r.datetime.day⟩))

/-- process_data(df): the tidy transform.  The first component is the
state of the caller's DataFrame after the call: the line
df.index.name = "Datetime" assigns into the index object of the argument,
so on the non-empty path the input comes back with its index renamed.
(The subsequent reset_index/melt work on fresh frames; the guard for a
missing Datetime column after reset_index can then never fire, and no
exception is raised on this model, so the except branch is not
representable.) -/
def process_data (df : WideDF) : WideDF × List QuoteRecord :=
  if df.isEmpty then (df, [])
  else
    let df2 := { df with indexName := some "Datetime" }
    (df2, addPartitionCols (dropnaClose (melt df2)))

/-- The data lake: a map from file path to parquet file content. -/
abbrev Store := List (String × List QuoteRecord)

/-- Writing a file at a path replaces whatever file was there. -/
def Store.writeFile (s : Store) (p : String) (content : List QuoteRecord) : Store :=
  (p, content) :: s.filter (fun kv => kv.1 ≠ p)

/-- The content of the file at a path, if one exists. -/
def Store.lookupFile (s : Store) (p : String) : Option (List QuoteRecord) :=
  (s.find? (fun kv => kv.1 = p)).map (fun kv => kv.2)

/-- Wall-clock time of day, as datetime.datetime.now() provides it. -/
structure Time where
  hour : Nat
  minute : Nat
  second : Nat
deriving DecidableEq, Repr

/-- Two-digit zero padding, as strftime does. -/
def pad2 (n : Nat) : String := if n < 10 then "0" ++ toString n else toString n

/-- current_time.strftime of HHMMSS. -/
def strftimeHMS (t : Time) : String := pad2 t.hour ++ pad2 t.minute ++ pad2 t.second

/-- The hive-style partition directory ano=Y/mes=M/dia=D under the root. -/
def partitionDir (base : String) (y m d : Int) : String :=
  base ++ "/ano=" ++ toString y ++ "/mes=" ++ toString m ++ "/dia=" ++ toString d

/-- The distinct partition keys of a batch, first occurrence first. -/
def partitionKeysOf (df : List QuoteRecord) : List (Int × Int × Int) :=
  (df.map (fun r => (r.ano, r.mes, r.dia))).foldl
    (fun acc k => if k ∈ acc then acc else acc ++ [k]) []

/-- df.to_parquet(path=base, engine=fastparquet, partition_cols=[ano,mes,dia],
compression=snappy, index=False).  fastparquet writes with the hive file
scheme and append unset; each batch is one row group (the default
row-group size far exceeds a one-minute batch), and the slice of row
group number 0 that falls in a partition is stored in that partition
directory under the fixed name part.0.parquet, replacing any file already
there.  The wall-clock file name computed by the caller plays no part. -/
def to_parquet (store : Store) (base : String) (df : List QuoteRecord) : Store :=
  (partitionKeysOf df).foldl
    (fun s k =>
      s.writeFile (partitionDir base k.1 k.2.1 k.2.2 ++ "/part.0.parquet")
        (df.filter (fun r => (r.ano, r.mes, r.dia) = k)))
    store

/-- Outcome of the filesystem side of one to_parquet call. -/
inductive FsOutcome
  | ok
  | fails (msg : String)
deriving DecidableEq, Repr

/-- What one save_to_datalake call leaves behind: the data lake state,
the log lines, and the exception propagated to the caller, if any. -/
structure SaveResult where
  store : Store
  logs : List LogEntry
  raised : Option String
deriving DecidableEq, Repr

/-- save_to_datalake(df, base_path): returns immediately on an empty
frame; otherwise computes the timestamped file name (which the source
never passes to to_parquet) and calls to_parquet inside a try block that
catches every exception, logs it, and returns normally — so `raised` is
none on every path. -/
def save_to_datalake (df : List QuoteRecord) (base_path : String)
    (store : Store) (now : Time) (fs : FsOutcome) : SaveResult :=
  if df.isEmpty then ⟨store, [], none⟩
  else
    let filename := "market_data_" ++ strftimeHMS now ++ ".parquet"
    match fs with
    | .fails e => ⟨store, [.error ("Error saving to Data Lake: " ++ e)], none⟩
    | .ok => ⟨to_parquet store base_path df,
              [.info ("Data saved successfully to " ++ base_path)], none⟩

/-- INTERVAL_SECONDS = 120, the normal inter-cycle delay. -/
def INTERVAL_SECONDS : Nat := 120

/-- BASE_PATH = "datalake", the store root. -/
def BASE_PATH : String := "datalake"

/-- The event driving one iteration of the while-True loop in main:
a normal pass (carrying the download outcome and the filesystem outcome
for the save), a KeyboardInterrupt, or an unexpected exception escaping
the stage calls into the loop-level handler. -/
inductive CycleEvent
  | fetch (r : Except String DownloadData) (fs : FsOutcome)
  | interrupt
  | critical (msg : String)

/-- What the loop body does next: sleep n seconds and run another cycle,
or break out of the loop. -/
inductive Outcome
  | sleep (seconds : Nat)
  | stop
deriving DecidableEq, Repr

/-- The observable effect of one loop iteration. -/
structure CycleResult where
  store : Store
  logs : List LogEntry
  outcome : Outcome
deriving Repr

/-- One iteration of the while-True loop in main.  On a normal pass the
body always reaches the trailing sleep(INTERVAL_SECONDS); a fetch that
came back empty skips processing, an empty processed frame is only
warned about, and only a non-empty processed frame reaches the writer.
KeyboardInterrupt breaks the loop; any other exception is logged as
critical and followed by sleep(60). -/
def mainCycle (store : Store) (now : Time) (ev : CycleEvent) : CycleResult :=
  match ev with
  | .interrupt => ⟨store, [.info "Service stopped by user."], .stop⟩
  | .critical e =>
      ⟨store, [.critical ("Critical error in main loop: " ++ e)], .sleep 60⟩
  | .fetch r fs =>
      let fetched := fetch_data r
      let df_raw := fetched.1
      let step : Store × List LogEntry :=
        if df_raw.isEmpty then (store, [])
        else
          let df_processed := (process_data df_raw).2
          if df_processed.isEmpty then
            (store, [.warning "Processed data is empty."])
          else
            let sv := save_to_datalake df_processed BASE_PATH store now fs
            (sv.store, sv.logs)
      ⟨step.1,
       .info "Fetching market data..." :: fetched.2 ++ step.2 ++
         [.info ("Sleeping for " ++ toString INTERVAL_SECONDS ++ " seconds...")],
       .sleep INTERVAL_SECONDS⟩

/-- All records stored in the lake, in file order. -/
def storeRecords (store : Store) : List QuoteRecord :=
  (store.map (fun kv => kv.2)).flatten

end Ingestor

namespace Dashboard

open Ingestor

/-- pd.read_parquet over the lake root: raises when the directory holds
no parquet files, otherwise returns every stored record. -/
def read_parquet (store : Store) : Except String (List QuoteRecord) :=
  if store.isEmpty then .error "no parquet files found"
  else .ok (storeRecords store)

/-- load_data(path) in src/dashboard.py: returns an empty frame when the
path does not exist, otherwise reads the lake; a read failure is caught,
shown via st.error (second component) and turned into an empty frame. -/
def load_data (dirExists : Bool) (store : Store) :
    List QuoteRecord × List String :=
  if dirExists then
    match read_parquet store with
    | .error e => ([], ["Error loading data: " ++ e])
    | .ok df => (df, [])
  else ([], [])

/-- What the dashboard main() renders before reaching the charts. -/
inductive DashRender
  | warnNoDir
  | infoNoData
  | page (records : List QuoteRecord)
deriving DecidableEq, Repr

/-- main() in src/dashboard.py, up to the first render decision: a
missing lake directory shows a warning, an empty frame shows an info
message, otherwise the page is built from the loaded records. -/
def dashboardMain (dirExists : Bool) (store : Store) : DashRender :=
  if dirExists then
    let df := (load_data dirExists store).1
    if df.isEmpty then .infoNoData else .page df
  else .warnNoDir

end Dashboard

namespace Ingestor

/-- Number of present (non-null) cells of a wide snapshot. -/
def presentCells (df : WideDF) : Nat :=
  (df.cols.map (fun c => c.2.countP (fun v => v.isSome))).sum

/-- The tidy records contributed by one column: one record per present
cell, in index (timestamp) order. -/
def colRecords (idx : List Datetime) (c : String × List (Option Price)) :
    List QuoteRecord :=
  addPartitionCols (dropnaClose ((idx.zip c.2).map (fun tv => ⟨tv.1, c.1, tv.2⟩)))

/-- Per-column record blocks concatenated in column order. -/
def allColRecords (idx : List Datetime) :
    List (String × List (Option Price)) → List QuoteRecord
  | [] => []
  | c :: cs => colRecords idx c ++ allColRecords idx cs

/-- A two-row, two-column snapshot with one null cell, used to
instantiate the hypotheses of the proved theorems. -/
def dfSample : WideDF :=
  ⟨none, [⟨2024, 1, 2, 9, 30⟩, ⟨2024, 1, 2, 9, 31⟩],
   [("AAA", [some 10, some 11]), ("BBB", [none, some 20])]⟩

/-- A concrete tidy record on 2024-01-02. -/
def recA : QuoteRecord := ⟨⟨2024, 1, 2, 9, 30⟩, "AAA", 10, 2024, 1, 2⟩

/-- A second tidy record on the same calendar day. -/
def recB : QuoteRecord := ⟨⟨2024, 1, 2, 9, 31⟩, "AAA", 11, 2024, 1, 2⟩

/-- The single file path that every write of a 2024-01-02 batch targets. -/
def dayPath : String := "datalake/ano=2024/mes=1/dia=2/part.0.parquet"

theorem pipeline_eq (idx : List Datetime)
    (cols : List (String × List (Option Price))) :
    addPartitionCols (dropnaClose (meltCols idx cols)) = allColRecords idx cols := by
  induction cols with
  | nil => rfl
  | cons c cs ih =>
      simp only [meltCols, dropnaClose, addPartitionCols, List.filter_append,
        List.filterMap_append]
      simp only [dropnaClose, addPartitionCols] at ih
      rw [ih]
      rfl

theorem colRecords_length (s : String) :
    ∀ (idx : List Datetime) (vs : List (Option Price)),
      idx.length = vs.length →
      (colRecords idx (s, vs)).length = vs.countP (fun v => v.isSome) := by
  intro idx
  induction idx with
  | nil =>
      intro vs h
      cases vs with
      | nil => rfl
      | cons v vs => simp at h
  | cons t idx ih =>
      intro vs h
      cases vs with
      | nil => simp at h
      | cons v vs =>
          have h' : idx.length = vs.length := by simpa using h
          have hrec := ih vs h'
          simp only [colRecords, dropnaClose, addPartitionCols] at hrec ⊢
          cases v with
          | none => simpa [List.countP_cons] using hrec
          | some p => simpa [List.countP_cons] using hrec

theorem allColRecords_length (idx : List Datetime) :
    ∀ (cols : List (String × List (Option Price))),
      (∀ c ∈ cols, c.2.length = idx.length) →
      (allColRecords idx cols).length
        = (cols.map (fun c => c.2.countP (fun v => v.isSome))).sum := by
  intro cols
  induction cols with
  | nil => intro _; rfl
  | cons c cs ih =>
      intro h
      obtain ⟨s, vs⟩ := c
      have h1 : vs.length = idx.length := h (s, vs) (List.mem_cons_self _ _)
      have h2 := ih (fun c hc => h c (List.mem_cons_of_mem _ hc))
      simp [allColRecords, colRecords_length s idx vs h1.symm, h2]

theorem addPartitionCols_inv {rows : List MeltedRow} {r : QuoteRecord}
    (h : r ∈ addPartitionCols rows) :
    ∃ row ∈ rows, ∃ p, row.close = some p
      ∧ r = ⟨row.datetime, row.ticker, p,
             row.datetime.year, row.datetime.month, row.datetime.day⟩ := by
  simp only [addPartitionCols, List.mem_filterMap] at h
  obtain ⟨row, hrow, hf⟩ := h
  cases hc : row.close with
  | none => rw [hc] at hf; simp at hf
  | some p =>
      rw [hc] at hf
      simp only [Option.map_some'] at hf
      exact ⟨row, hrow, p, hc, (Option.some.inj hf).symm⟩

theorem mem_colRecords_ticker (idx : List Datetime)
    (c : String × List (Option Price)) (r : QuoteRecord)
    (h : r ∈ colRecords idx c) : r.ticker = c.1 := by
  simp only [colRecords] at h
  obtain ⟨row, hrow, p, hp, hr⟩ := addPartitionCols_inv h
  have hrow' : row ∈ (idx.zip c.2).map (fun tv => (⟨tv.1, c.1, tv.2⟩ : MeltedRow)) :=
    (List.mem_filter.mp hrow).1
  obtain ⟨tv, _, hmk⟩ := List.mem_map.mp hrow'
  rw [hr, ← hmk]

theorem mem_allColRecords_ticker (idx : List Datetime) :
    ∀ (cols : List (String × List (Option Price))) (r : QuoteRecord),
      r ∈ allColRecords idx cols → r.ticker ∈ cols.map Prod.fst := by
  intro cols
  induction cols with
  | nil => intro r hr; simp [allColRecords] at hr
  | cons c cs ih =>
      intro r hr
      rcases List.mem_append.mp hr with h1 | h2
      · exact List.mem_cons.mpr (Or.inl (mem_colRecords_ticker idx c r h1))
      · exact List.mem_cons.mpr (Or.inr (ih r h2))

theorem filter_allColRecords (idx : List Datetime) :
    ∀ (cols : List (String × List (Option Price)))
      (c : String × List (Option Price)),
      (cols.map Prod.fst).Nodup → c ∈ cols →
      (allColRecords idx cols).filter (fun r => r.ticker == c.1)
        = colRecords idx c := by
  intro cols
  induction cols with
  | nil => intro c _ hc; simp at hc
  | cons c0 cs ih =>
      intro c hd hc
      rw [List.map_cons, List.nodup_cons] at hd
      have hd' := hd
      rw [allColRecords, List.filter_append]
      rcases List.mem_cons.mp hc with rfl | hmem
      · have h1 : (colRecords idx c).filter (fun r => r.ticker == c.1)
            = colRecords idx c := by
          apply List.filter_eq_self.mpr
          intro r hr
          simp [mem_colRecords_ticker idx c r hr]
        have h2 : (allColRecords idx cs).filter (fun r => r.ticker == c.1) = [] := by
          apply List.filter_eq_nil_iff.mpr
          intro r hr
          have hmem2 := mem_allColRecords_ticker idx cs r hr
          have hne : r.ticker ≠ c.1 := fun he => hd'.1 (he ▸ hmem2)
          simp [hne]
        rw [h1, h2, List.append_nil]
      · have hcfst : c.1 ∈ cs.map Prod.fst := List.mem_map_of_mem _ hmem
        have hne : c0.1 ≠ c.1 := fun he => hd'.1 (he ▸ hcfst)
        have h1 : (colRecords idx c0).filter (fun r => r.ticker == c.1) = [] := by
          apply List.filter_eq_nil_iff.mpr
          intro r hr
          have := mem_colRecords_ticker idx c0 r hr
          simp [this, hne]
        rw [h1, ih c hd'.2 hmem, List.nil_append]

theorem allColRecords_nil_index :
    ∀ (cols : List (String × List (Option Price))),
      allColRecords [] cols = [] := by
  intro cols
  induction cols with
  | nil => rfl
  | cons c cs ih => simp [allColRecords, colRecords, dropnaClose, addPartitionCols, ih]

theorem presentCells_eq_zero_of_empty (df : WideDF)
    (h : df.wellFormed) (he : df.isEmpty = true) : presentCells df = 0 := by
  have he' : df.index = [] ∨ df.cols = [] := by
    simpa [WideDF.isEmpty, List.isEmpty_iff] using he
  rcases he' with hidx | hcols
  · apply List.sum_eq_zero
    intro x hx
    obtain ⟨c, hc, hcx⟩ := List.mem_map.mp hx
    have hlen : c.2.length = 0 := by rw [h c hc, hidx]; rfl
    have hnil : c.2 = [] := List.length_eq_zero.mp hlen
    rw [← hcx, hnil]
    rfl
  · simp [presentCells, hcols]

theorem process_data_snd_eq (df : WideDF) (he : df.isEmpty = false) :
    (process_data df).2 = allColRecords df.index df.cols := by
  simp only [process_data, he, Bool.false_eq_true, if_false]
  exact pipeline_eq df.index df.cols

end Ingestor

open Ingestor Dashboard

/-- C1: for every well-formed RawSnapshot, process_data returns exactly one
QuoteRecord per present (non-null) cell — a null cell produces no record and
an empty or entirely-null snapshot yields the empty sequence — and every
returned record carries ano, mes, dia equal to the calendar decomposition of
its timestamp. -/
theorem tidy_totality (df : WideDF) (h : df.wellFormed) :
    ((process_data df).2).length = presentCells df
    ∧ ∀ r ∈ (process_data df).2,
        r.ano = r.datetime.year ∧ r.mes = r.datetime.month ∧ r.dia = r.datetime.day := by
  have hkeys : ∀ r ∈ (process_data df).2,
      r.ano = r.datetime.year ∧ r.mes = r.datetime.month ∧ r.dia = r.datetime.day := by
    intro r hr
    by_cases he : df.isEmpty
    · simp [process_data, he] at hr
    · rw [process_data_snd_eq df (by simpa using he)] at hr
      have hpe : addPartitionCols (dropnaClose (meltCols df.index df.cols))
          = allColRecords df.index df.cols := pipeline_eq _ _
      rw [← hpe] at hr
      obtain ⟨row, _, p, _, hrow⟩ := addPartitionCols_inv hr
      exact ⟨by rw [hrow], by rw [hrow], by rw [hrow]⟩
  refine ⟨?_, hkeys⟩
  by_cases he : df.isEmpty
  · have h0 : presentCells df = 0 := presentCells_eq_zero_of_empty df h he
    simp [process_data, he, h0]
  · rw [process_data_snd_eq df (by simpa using he)]
    rw [allColRecords_length df.index df.cols h]
    rfl

/-- C1 witness: the totality theorem instantiated at a concrete two-by-two
snapshot with one null cell. -/
theorem tidy_totality_witness :
    dfSample.wellFormed ∧ ((process_data dfSample).2).length = presentCells dfSample :=
  ⟨by decide, (tidy_totality dfSample (by decide)).1⟩

/-- C2: the writer is not purely additive.  Two non-empty writes in the same
process, both carrying records for 2024-01-02, target the same file path
(fastparquet hive naming, since the timestamped file name computed by
save_to_datalake is never passed to to_parquet): the second call replaces the
file the first call created, so its content is lost instead of a new file
being added. -/
theorem save_to_datalake_overwrites_previous_write :
    (save_to_datalake [recA] "datalake" [] ⟨10, 0, 0⟩ .ok).store
      = [(dayPath, [recA])]
    ∧ (save_to_datalake [recB] "datalake"
        (save_to_datalake [recA] "datalake" [] ⟨10, 0, 0⟩ .ok).store
        ⟨10, 2, 0⟩ .ok).store
      = [(dayPath, [recB])] := by
  constructor
  · rfl
  · rfl

/-- C3 counterexample: on a transport failure the value fetch_data hands its
caller is the plain empty DataFrame — identical to what an empty successful
download produces — so no FetchError and no underlying cause reaches the
caller. -/
theorem fetch_error_reaches_no_caller :
    (fetch_data (Except.error "connection timed out")).1 = WideDF.emptyFrame
    ∧ (fetch_data (Except.error "connection timed out")).1
        = (fetch_data (Except.ok ⟨true, none⟩)).1 :=
  ⟨rfl, rfl⟩

/-- C3 amended: on any transport or parse failure of the upstream call,
fetch_data catches the exception, logs the underlying cause, and returns an
empty DataFrame to its caller; it raises nothing and performs no retry. -/
theorem fetch_data_error_swallowed (e : String) :
    fetch_data (Except.error e)
      = (WideDF.emptyFrame, [LogEntry.error ("Error fetching data: " ++ e)]) :=
  rfl

/-- C4 counterexample: on a concrete filesystem failure (no space left), the
save call propagates nothing to its caller and leaves the store untouched —
exactly the return behavior of a successful call, not a reported WriteError. -/
theorem save_error_reaches_no_caller :
    (save_to_datalake [recA] "datalake" [] ⟨10, 0, 0⟩
        (.fails "No space left on device")).raised = none
    ∧ (save_to_datalake [recA] "datalake" [] ⟨10, 0, 0⟩
        (.fails "No space left on device")).store = [] :=
  ⟨rfl, rfl⟩

/-- C4 amended: on a filesystem, permission, or space failure,
save_to_datalake catches the exception, logs the underlying cause, and
returns normally to its caller (no error value or exception is reported);
it does not retry. -/
theorem save_to_datalake_failure_swallowed (df : List QuoteRecord)
    (base : String) (store : Store) (now : Time) (e : String) (h : df ≠ []) :
    (save_to_datalake df base store now (.fails e)).raised = none
    ∧ (save_to_datalake df base store now (.fails e)).logs
        = [LogEntry.error ("Error saving to Data Lake: " ++ e)] := by
  cases df with
  | nil => exact absurd rfl h
  | cons a l => exact ⟨rfl, rfl⟩

/-- C4 witness: the amended save-failure theorem instantiated at a one-record
batch and a full disk. -/
theorem save_to_datalake_failure_swallowed_witness :
    ([recA] ≠ ([] : List QuoteRecord))
    ∧ (save_to_datalake [recA] "datalake" [] ⟨10, 0, 0⟩
        (.fails "read-only file system")).raised = none :=
  ⟨by decide,
   (save_to_datalake_failure_swallowed [recA] "datalake" [] ⟨10, 0, 0⟩
      "read-only file system" (by decide)).1⟩

/-- C5: in a cycle whose fetch fails, the failure is logged, the store is
left untouched, the loop is not stopped, and the next cycle follows after
the normal INTERVAL_SECONDS delay. -/
theorem cycle_isolation_fetch_failure (store : Store) (now : Time)
    (e : String) (fs : FsOutcome) :
    (mainCycle store now (.fetch (Except.error e) fs)).store = store
    ∧ LogEntry.error ("Error fetching data: " ++ e)
        ∈ (mainCycle store now (.fetch (Except.error e) fs)).logs
    ∧ (mainCycle store now (.fetch (Except.error e) fs)).outcome
        = Outcome.sleep INTERVAL_SECONDS := by
  refine ⟨rfl, ?_, rfl⟩
  have hl : (mainCycle store now (.fetch (Except.error e) fs)).logs
      = [.info "Fetching market data...",
         .error ("Error fetching data: " ++ e),
         .info ("Sleeping for " ++ toString INTERVAL_SECONDS ++ " seconds...")] := rfl
  rw [hl]
  simp

/-- C6: a critical (unexpected) failure in the loop body makes the scheduler
sleep the 60-second backoff and continue; no event other than the external
interrupt ever stops the loop. -/
theorem scheduler_critical_backoff (store : Store) (now : Time)
    (e : String) (ev : CycleEvent) :
    (mainCycle store now (.critical e)).outcome = Outcome.sleep 60
    ∧ ((mainCycle store now ev).outcome = Outcome.stop ↔ ev = CycleEvent.interrupt) := by
  refine ⟨rfl, ?_⟩
  cases ev with
  | interrupt => simp [mainCycle]
  | critical m =>
      have h : (mainCycle store now (.critical m)).outcome = Outcome.sleep 60 := rfl
      rw [h]
      simp
  | fetch r fs =>
      have h : (mainCycle store now (.fetch r fs)).outcome
          = Outcome.sleep INTERVAL_SECONDS := rfl
      rw [h]
      simp

/-- C7: writing an empty record sequence is a no-op — the store is returned
unchanged, with no file or directory created, nothing logged and nothing
raised, whatever the store root, clock, or filesystem condition. -/
theorem save_to_datalake_empty_noop (base : String) (store : Store)
    (now : Time) (fs : FsOutcome) :
    save_to_datalake [] base store now fs = ⟨store, [], none⟩ :=
  rfl

/-- C8 counterexample: process_data does not leave its input unchanged — on
a snapshot whose index is not yet named Datetime, the call hands back the
input with its index metadata rewritten. -/
theorem process_data_mutates_input :
    (process_data dfSample).1 ≠ dfSample := by
  decide

/-- C8 amended: process_data is pure except for one effect on its input: on
a non-empty snapshot it sets the index name of the input to Datetime.  The
index entries and the columns (labels and cell values) are never modified,
and an empty input is returned entirely unchanged. -/
theorem process_data_mutation_frame (df : WideDF) :
    ((process_data df).1).index = df.index
    ∧ ((process_data df).1).cols = df.cols
    ∧ (df.isEmpty = true → (process_data df).1 = df)
    ∧ (df.isEmpty = false → (process_data df).1
        = { df with indexName := some "Datetime" }) := by
  by_cases he : df.isEmpty <;> simp [process_data, he]

/-- C8 witness: the mutation-frame theorem instantiated at the concrete
sample snapshot, whose index is unnamed. -/
theorem process_data_mutation_frame_witness :
    dfSample.isEmpty = false
    ∧ (process_data dfSample).1 = { dfSample with indexName := some "Datetime" } :=
  ⟨by decide, (process_data_mutation_frame dfSample).2.2.2 (by decide)⟩

/-- C9: the dashboard tolerates a missing or empty store: with the lake
directory absent, load_data yields the empty frame and main renders the
warning message; with the directory present but holding no records,
load_data yields the empty frame and main renders the info message.  No
path raises. -/
theorem dashboard_tolerates_missing_or_empty (store : Store) :
    (Dashboard.load_data false store).1 = []
    ∧ Dashboard.dashboardMain false store = Dashboard.DashRender.warnNoDir
    ∧ (storeRecords store = [] →
        (Dashboard.load_data true store).1 = []
        ∧ Dashboard.dashboardMain true store = Dashboard.DashRender.infoNoData) := by
  refine ⟨rfl, rfl, fun h => ?_⟩
  cases store with
  | nil => exact ⟨rfl, rfl⟩
  | cons f fs =>
      have h1 : (Dashboard.load_data true (f :: fs)).1 = [] := by
        simp [Dashboard.load_data, Dashboard.read_parquet, h]
      refine ⟨h1, ?_⟩
      simp [Dashboard.dashboardMain, Dashboard.load_data, Dashboard.read_parquet, h]

/-- C9 witness: the tolerance theorem instantiated at the store that holds
no file at all. -/
theorem dashboard_tolerates_missing_or_empty_witness :
    storeRecords ([] : Store) = []
    ∧ Dashboard.dashboardMain true ([] : Store) = Dashboard.DashRender.infoNoData :=
  ⟨rfl, ((dashboard_tolerates_missing_or_empty ([] : Store)).2.2 rfl).2⟩

/-- C10: the tidy output order is deterministic and column-major — the
records are exactly the per-column blocks concatenated in the snapshot
column order, each block listing that column symbol records in index
(timestamp) order; with distinct column names, filtering the output by one
symbol returns precisely that column block. -/
theorem process_data_column_major (df : WideDF)
    (hd : (df.cols.map Prod.fst).Nodup) :
    (process_data df).2 = allColRecords df.index df.cols
    ∧ ∀ c ∈ df.cols,
        ((process_data df).2).filter (fun r => r.ticker == c.1)
          = colRecords df.index c := by
  have h1 : (process_data df).2 = allColRecords df.index df.cols := by
    by_cases he : df.isEmpty
    · have he' : df.index = [] ∨ df.cols = [] := by
        simpa [WideDF.isEmpty, List.isEmpty_iff] using he
      rcases he' with hidx | hcols
      · rw [hidx]
        simp [process_data, he, allColRecords_nil_index]
      · rw [hcols]
        simp [process_data, he, allColRecords]
    · exact process_data_snd_eq df (by simpa using he)
  refine ⟨h1, fun c hc => ?_⟩
  rw [h1]
  exact filter_allColRecords df.index df.cols c hd hc

/-- C10 witness: the column-major theorem instantiated at the concrete
sample snapshot, including the filter characterization at its second
column. -/
theorem process_data_column_major_witness :
    (process_data dfSample).2 = allColRecords dfSample.index dfSample.cols
    ∧ ((process_data dfSample).2).filter (fun r => r.ticker == "BBB")
        = colRecords dfSample.index ("BBB", [none, some 20]) :=
  ⟨(process_data_column_major dfSample (by decide)).1,
   (process_data_column_major dfSample (by decide)).2
     ("BBB", [none, some 20]) (by decide)⟩
